import Mathlib

/-!
Verification of the `review` command-line tool (a git workflow wrapper,
`src/review.go`) against its natural-language specification.

The program is shallowly embedded: each command becomes a pure Lean
function from an `Env` (an oracle describing the outcomes of external
invocations and filesystem checks) to a `Res` recording the trace of
external tool invocations issued, the messages printed, and the process
exit status.  The string-parsing helpers (`hasStagedChanges`,
`isOnMaster`) are embedded directly as functions on the captured output
text.
-/

/-- One external tool invocation: the argument vector, e.g.
`["git", "checkout", "-q", "-b", name]`. -/
abbrev Argv := List String

/-- Splitting a character list at newline characters, mirroring Go's
`strings.Split(s, "\n")` specialised to the separator actually used. -/
def splitNlAux : List Char → List Char → List (List Char)
  | [], acc => [acc.reverse]
  | c :: rest, acc =>
      if c = '\n' then acc.reverse :: splitNlAux rest []
      else splitNlAux rest (c :: acc)

/-- The lines of a captured output string, as Go's
`strings.Split(string(out), "\n")` produces them (trailing empty line
included when the output ends in a newline). -/
def splitNl (s : String) : List String :=
  (splitNlAux s.data []).map (fun l => String.mk l)

/-- The staged-change regular expression `^[ACDMR]  ` of
`src/review.go` (`stagedRe`), as a predicate on a single line: the line
starts with one of the characters A, C, D, M, R followed by two space
characters. -/
def stagedMatch (s : String) : Bool :=
  match s.data with
  | c :: d :: f :: _ =>
      (c == 'A' || c == 'C' || c == 'D' || c == 'M' || c == 'R')
        && d == ' ' && f == ' '
  | _ => false

/-- The loop of `hasStagedChanges` over the split status lines:
return true at the first line matching `stagedRe`, false if none does. -/
def stagedLoop : List String → Bool
  | [] => false
  | s :: rest => if stagedMatch s then true else stagedLoop rest

/-- `hasStagedChanges` of `src/review.go`, applied to the captured
combined output of `git status -s` (the query's own failure mode is
handled at the command level, see `Env.statusOk`). -/
def hasStagedChangesOut (out : String) : Bool :=
  stagedLoop (splitNl out)

/-- `strings.HasPrefix` on character lists (pattern first): used to embed
the `"* "` current-branch marker test of `isOnMaster`. -/
def hasPrefixCh : List Char → List Char → Bool
  | [], _ => true
  | _ :: _, [] => false
  | p :: ps, c :: cs => p == c && hasPrefixCh ps cs

/-- String equality via the underlying character lists (kernel-reducible
form of `s == t`). -/
def strEq (s t : String) : Bool :=
  s.data == t.data

/-- The loop of `isOnMaster` over the split branch-listing lines: at the
first line starting with `"* "` return whether that line is exactly
`"* master"`; false when no line has the prefix. -/
def branchLoop : List String → Bool
  | [] => false
  | s :: rest =>
      if hasPrefixCh ("* ").data s.data then strEq s "* master"
      else branchLoop rest

/-- `isOnMaster` of `src/review.go`, applied to the captured combined
output of `git branch`. -/
def isOnMasterOut (out : String) : Bool :=
  branchLoop (splitNl out)

/-! ## External invocation shapes (`src/review.go`, §6 of the spec) -/

def statusQuery : Argv := ["git", "status", "-s"]
def branchQuery : Argv := ["git", "branch"]
def checkoutNew (name : String) : Argv := ["git", "checkout", "-q", "-b", name]
def commitQ : Argv := ["git", "commit", "-q"]
def checkoutMaster : Argv := ["git", "checkout", "-q", "master"]
def branchDelete (name : String) : Argv := ["git", "branch", "-q", "-d", name]
def commitAmend : Argv := ["git", "commit", "-q", "--amend", "-C", "HEAD"]
def diffHead : Argv := ["git", "diff", "HEAD^", "HEAD"]
def pushUpload : Argv := ["git", "push", "origin", "HEAD:refs/for/master"]
def fetchQ : Argv := ["git", "fetch", "-q"]
def pullFF : Argv := ["git", "pull", "-q", "--ff-only"]
def rebaseMaster : Argv := ["git", "rebase", "origin/master"]

/-! ## Environment, messages, results -/

/-- Outcome of the `os.Stat(hookFile)` check in `installHook`. -/
inductive StatRes where
  | ok
  | notExist
  | otherErr
deriving DecidableEq, Repr

/-- The environment: an oracle fixing the outcome of every external
interaction the program can make in one run.  `runOk` gives the exit
status of each spawned invocation; `statusOk`/`branchOut` etc. describe
the two captured-output queries; `hookStat`/`hookWriteOk` the hook-file
filesystem accesses; `rootOk` whether `goToRepoRoot` finds a `.git`
marker before the filesystem root.  The `...ErrText` fields carry the
textual rendering of the corresponding Go `error` values. -/
structure Env where
  verbose : Bool
  rootOk : Bool
  rootErrText : String
  hookStat : StatRes
  hookWriteOk : Bool
  hookStatErrText : String
  hookWriteErrText : String
  statusOk : Bool
  statusOut : String
  statusErrText : String
  branchOk : Bool
  branchOut : String
  branchErrText : String
  runOk : Argv → Bool
  runErrText : Argv → String

/-- One message the program emits: the usage block, the help block, a
formatted text printed to standard error (`dief` / `verbosef` /
captured-query failure), or an echoed invocation (`commandString`
printed either as the verbose pre-echo or as failure context). -/
inductive Msg where
  | usage
  | help
  | err (s : String)
  | echo (argv : Argv)
deriving DecidableEq, Repr

/-- Result of a run: the trace of external invocations spawned (in
order), the messages printed, and `exit = some c` when the process
called `os.Exit c` (`none`: the function returned normally and the
process later exits 0). -/
structure Res where
  trace : List Argv
  msgs : List Msg
  exit : Option Nat
deriving DecidableEq, Repr

/-- The process exit status a `Res` leads to: an explicit `os.Exit`
code, or 0 on normal return from `main`. -/
def Res.code (r : Res) : Nat :=
  r.exit.getD 0

/-- `verbosef`: the message printed when verbose mode is on. -/
def verbosef (e : Env) (s : String) : List Msg :=
  if e.verbose then [Msg.err s] else []

/-- The pre-echo of `runErr`: in verbose mode the invocation is printed
before it is run. -/
def runEcho (e : Env) (a : Argv) : List Msg :=
  if e.verbose then [Msg.echo a] else []

/-- The messages a failing `run` produces: the `runErr` pre-echo, then
(when not verbose) the invocation for context, then `dief("%v\n", err)`. -/
def runFailMsgs (e : Env) (a : Argv) : List Msg :=
  runEcho e a ++ (if e.verbose then [] else [Msg.echo a])
    ++ [Msg.err (e.runErrText a ++ "\n")]

/-- Rendering of Go's `%q` verb on a branch name (names without
escape-worthy characters). -/
def quoteGo (s : String) : String :=
  "\"" ++ s ++ "\""

/-- The fatal message of `hasStagedChanges` when `git status -s` itself
fails: `dief("%s\nchecking for staged changes: %v\n", status, err)`. -/
def statusFailMsg (e : Env) : Msg :=
  Msg.err (e.statusOut ++ "\nchecking for staged changes: "
    ++ e.statusErrText ++ "\n")

/-- The fatal message of `isOnMaster` when `git branch` itself fails:
`dief("%s\nchecking current branch: %v\n", branch, err)`. -/
def branchFailMsg (e : Env) : Msg :=
  Msg.err (e.branchOut ++ "\nchecking current branch: "
    ++ e.branchErrText ++ "\n")

def noStagedMsg : String :=
  "No staged changes. Did you forget to \"git add\" your files?\n"

def notOnMasterMsg : String :=
  "You must run create from the master branch. (\"git checkout master\".)\n"

def commitOnMasterMsg : String := "Can\x27t commit to master branch.\n"

def uploadOnMasterMsg : String := "Can\x27t upload from master branch.\n"

def pendingMsg : String := "not implemented\n"

/-! ## The commands (`src/review.go`) -/

/-- `create(name)`: require staged changes and the master branch, then
`git checkout -q -b name`; commit the staged changes with
`git commit -q` (via `runErr`); if the commit fails, roll back with
`git checkout -q master` and `git branch -q -d name` (each via the
fatal wrapper `run`). -/
def create (e : Env) (name : String) : Res :=
  if !e.statusOk then
    ⟨[statusQuery], [statusFailMsg e], some 1⟩
  else if !hasStagedChangesOut e.statusOut then
    ⟨[statusQuery], [Msg.err noStagedMsg], some 1⟩
  else if !e.branchOk then
    ⟨[statusQuery, branchQuery], [branchFailMsg e], some 1⟩
  else if !isOnMasterOut e.branchOut then
    ⟨[statusQuery, branchQuery], [Msg.err notOnMasterMsg], some 1⟩
  else
    let ms0 := verbosef e
      ("Creating and checking out branch " ++ quoteGo name ++ ".\n")
    if !e.runOk (checkoutNew name) then
      ⟨[statusQuery, branchQuery, checkoutNew name],
        ms0 ++ runFailMsgs e (checkoutNew name), some 1⟩
    else
      let ms1 := ms0 ++ runEcho e (checkoutNew name)
        ++ verbosef e "Committing staged changes to branch.\n"
        ++ runEcho e commitQ
      if e.runOk commitQ then
        ⟨[statusQuery, branchQuery, checkoutNew name, commitQ], ms1, none⟩
      else
        let ms2 := ms1
          ++ verbosef e ("Commit failed: " ++ e.runErrText commitQ ++ "\n")
          ++ verbosef e "Switching back to master.\n"
        if !e.runOk checkoutMaster then
          ⟨[statusQuery, branchQuery, checkoutNew name, commitQ,
              checkoutMaster],
            ms2 ++ runFailMsgs e checkoutMaster, some 1⟩
        else
          let ms3 := ms2 ++ runEcho e checkoutMaster
            ++ verbosef e ("Deleting branch " ++ quoteGo name ++ ".\n")
          if !e.runOk (branchDelete name) then
            ⟨[statusQuery, branchQuery, checkoutNew name, commitQ,
                checkoutMaster, branchDelete name],
              ms3 ++ runFailMsgs e (branchDelete name), some 1⟩
          else
            ⟨[statusQuery, branchQuery, checkoutNew name, commitQ,
                checkoutMaster, branchDelete name],
              ms3 ++ runEcho e (branchDelete name), none⟩

/-- `commit()`: require staged changes and NOT the master branch, then
`git commit -q --amend -C HEAD` via the fatal wrapper `run`. -/
def commit (e : Env) : Res :=
  if !e.statusOk then
    ⟨[statusQuery], [statusFailMsg e], some 1⟩
  else if !hasStagedChangesOut e.statusOut then
    ⟨[statusQuery], [Msg.err noStagedMsg], some 1⟩
  else if !e.branchOk then
    ⟨[statusQuery, branchQuery], [branchFailMsg e], some 1⟩
  else if isOnMasterOut e.branchOut then
    ⟨[statusQuery, branchQuery], [Msg.err commitOnMasterMsg], some 1⟩
  else
    let ms := verbosef e "Amending head commit with staged changes.\n"
      ++ runEcho e commitAmend
    if e.runOk commitAmend then
      ⟨[statusQuery, branchQuery, commitAmend], ms, none⟩
    else
      ⟨[statusQuery, branchQuery, commitAmend],
        verbosef e "Amending head commit with staged changes.\n"
          ++ runFailMsgs e commitAmend, some 1⟩

/-- `diff()`: `git diff HEAD^ HEAD`, no precondition. -/
def diff (e : Env) : Res :=
  if e.runOk diffHead then
    ⟨[diffHead], runEcho e diffHead, none⟩
  else
    ⟨[diffHead], runFailMsgs e diffHead, some 1⟩

/-- `upload()`: require NOT the master branch, then
`git push origin HEAD:refs/for/master`. -/
def upload (e : Env) : Res :=
  if !e.branchOk then
    ⟨[branchQuery], [branchFailMsg e], some 1⟩
  else if isOnMasterOut e.branchOut then
    ⟨[branchQuery], [Msg.err uploadOnMasterMsg], some 1⟩
  else
    let ms := verbosef e "Pushing commit to Gerrit code review server.\n"
      ++ runEcho e pushUpload
    if e.runOk pushUpload then
      ⟨[branchQuery, pushUpload], ms, none⟩
    else
      ⟨[branchQuery, pushUpload],
        verbosef e "Pushing commit to Gerrit code review server.\n"
          ++ runFailMsgs e pushUpload, some 1⟩

/-- `sync()`: `git fetch -q`; then on master a fast-forward-only pull,
otherwise a rebase onto origin/master. -/
def sync (e : Env) : Res :=
  let ms0 := verbosef e "Fetching changes from remote repo.\n"
  if !e.runOk fetchQ then
    ⟨[fetchQ], ms0 ++ runFailMsgs e fetchQ, some 1⟩
  else
    let ms1 := ms0 ++ runEcho e fetchQ
    if !e.branchOk then
      ⟨[fetchQ, branchQuery], ms1 ++ [branchFailMsg e], some 1⟩
    else if isOnMasterOut e.branchOut then
      if e.runOk pullFF then
        ⟨[fetchQ, branchQuery, pullFF], ms1 ++ runEcho e pullFF, none⟩
      else
        ⟨[fetchQ, branchQuery, pullFF], ms1 ++ runFailMsgs e pullFF, some 1⟩
    else
      let ms2 := ms1 ++ verbosef e "Rebasing head commit atop origin/master.\n"
      if e.runOk rebaseMaster then
        ⟨[fetchQ, branchQuery, rebaseMaster],
          ms2 ++ runEcho e rebaseMaster, none⟩
      else
        ⟨[fetchQ, branchQuery, rebaseMaster],
          ms2 ++ runFailMsgs e rebaseMaster, some 1⟩

/-- `pending()`: always `dief("not implemented\n")`. -/
def pending : Res :=
  ⟨[], [Msg.err pendingMsg], some 1⟩

/-! ## Hook installer (`installHook`, `src/review.go`) -/

/-- Modelled from the spec: the fixed static commit-message hook script
template (`commitMsgHook`), defined in a source file of this repository
that is not under `src/`.  Its content is opaque to the spec ("a static
template written verbatim to a fixed path", §1; "content is an opaque
template", §6), so it is represented here by a fixed constant; no claim
depends on its text. -/
def commitMsgHook : String :=
  "#!/bin/sh\n"

/-- The hook file path `.git/hooks/commit-msg` (`hookFile`). -/
def hookFile : String :=
  ".git/hooks/commit-msg"

/-- What `installHook` does, as a function of the `os.Stat(hookFile)`
outcome. -/
inductive HookAct where
  | noop
  | wrote (content : String) (perm : Nat)
  | fatal
deriving DecidableEq, Repr

/-- `installHook` of `src/review.go`: no-op when the hook file exists;
write the template with permission `0700` when the stat failed because
the file does not exist; die on any other stat failure. -/
def installHook : StatRes → HookAct
  | StatRes.ok => HookAct.noop
  | StatRes.notExist => HookAct.wrote commitMsgHook 0o700
  | StatRes.otherErr => HookAct.fatal

/-- The hook file's state on disk: `some c` when a file with content `c`
exists at `hookFile`, `none` when absent. -/
abbrev HookFS := Option String

/-- The `os.Stat` outcome a hook-file state produces (no other failure
mode arises from the file's mere presence or absence). -/
def statOf : HookFS → StatRes
  | some _ => StatRes.ok
  | none => StatRes.notExist

/-- Running `installHook` against the disk: the hook file's state after
the call (a successful write places the template; a no-op leaves the
file untouched). -/
def installHookFS (fs : HookFS) : HookFS :=
  match installHook (statOf fs) with
  | HookAct.noop => fs
  | HookAct.wrote c _ => some c
  | HookAct.fatal => fs

/-- The verbose message `installHook` prints before creating the file. -/
def hookCreateMsg : String :=
  "Presubmit hook to add Change-Id to commit messages is missing.\n"
    ++ "Automatically creating it at " ++ hookFile ++ ".\n"

/-- `installHook` as a step of `main`: its messages and, when it dies
(`dief`), the exit code. -/
def installHookRun (e : Env) : List Msg × Option Nat :=
  match installHook e.hookStat with
  | HookAct.noop => ([], none)
  | HookAct.fatal =>
      ([Msg.err ("checking for hook file: " ++ e.hookStatErrText ++ "\n")],
        some 1)
  | HookAct.wrote _ _ =>
      let ms := verbosef e hookCreateMsg
      if e.hookWriteOk then (ms, none)
      else (ms ++ [Msg.err ("writing hook file: " ++ e.hookWriteErrText
        ++ "\n")], some 1)

/-! ## The dispatcher (`main`, `src/review.go`) -/

/-- `main` after flag parsing: `args` are the positional arguments
(`flag.Arg(i)` is `""` past the end).  `goToRepoRoot` and `installHook`
run before dispatch; the first CLI argument then selects the command,
with `flag.Usage` (print usage, exit 2) for a missing `create` name or
an unrecognized or missing command. -/
def mainRun (e : Env) (args : List String) : Res :=
  if !e.rootOk then
    ⟨[], [Msg.err e.rootErrText], some 1⟩
  else
    match installHookRun e with
    | (hms, some c) => ⟨[], hms, some c⟩
    | (hms, none) =>
      let cmd := args.head?.getD ""
      let r : Res :=
        if strEq cmd "help" then ⟨[], [Msg.help], none⟩
        else if strEq cmd "create" || strEq cmd "cr" then
          let name := (args.drop 1).head?.getD ""
          if strEq name "" then ⟨[], [Msg.usage], some 2⟩
          else create e name
        else if strEq cmd "commit" || strEq cmd "co" then commit e
        else if strEq cmd "diff" || strEq cmd "d" then diff e
        else if strEq cmd "upload" || strEq cmd "u" then upload e
        else if strEq cmd "sync" || strEq cmd "s" then sync e
        else if strEq cmd "pending" || strEq cmd "p" then pending
        else ⟨[], [Msg.usage], some 2⟩
      ⟨r.trace, hms ++ r.msgs, r.exit⟩

/-- The command names `main` recognizes. -/
def knownCommands : List String :=
  ["help", "create", "cr", "commit", "co", "diff", "d",
    "upload", "u", "sync", "s", "pending", "p"]

/-! ## Abstract state of the underlying tool -/

/-- Modelled from the spec: the branch-level state of the underlying
version-control tool (out of scope of `src/`, §1: "treated as a
black-box command executor"; §4.5 tracks the axes current-branch and
staged-changes).  Only the current branch and the set of local branches
are tracked — exactly what the rollback claims speak about. -/
structure GitState where
  current : String
  branches : List String
deriving DecidableEq, Repr

/-- Modelled from the spec: the effect of one successful underlying-tool
invocation on the branch-level state, per the invocation shapes of §6
(`checkout -q -b <name>` creates and switches to the branch,
`checkout -q master` switches to master, `branch -q -d <name>` deletes
the branch; queries and commit-level operations leave the branch axis
unchanged). -/
def applyGit (st : GitState) (a : Argv) : GitState :=
  match a with
  | ["git", "checkout", "-q", "-b", n] => ⟨n, st.branches ++ [n]⟩
  | ["git", "checkout", "-q", n] => ⟨n, st.branches⟩
  | ["git", "branch", "-q", "-d", n] =>
      ⟨st.current, st.branches.filter (fun b => b != n)⟩
  | _ => st

/-- Folding a trace over the abstract state: a failed invocation (per
the environment's oracle) has no effect. -/
def runTrace (e : Env) (st : GitState) (tr : List Argv) : GitState :=
  tr.foldl (fun s a => if e.runOk a then applyGit s a else s) st

/-! ## Helper lemmas -/

theorem strEq_iff (s t : String) : strEq s t = true ↔ s = t := by
  rcases s with ⟨ds⟩
  rcases t with ⟨dt⟩
  simp only [strEq, beq_iff_eq]
  exact ⟨congrArg String.mk, fun h => by injection h⟩

theorem strEq_false_of_ne {s t : String} (h : s ≠ t) : strEq s t = false := by
  rcases hb : strEq s t with _ | _
  · rfl
  · exact absurd ((strEq_iff s t).1 hb) h

/-- The claim-side reading of `stagedRe`: the line's characters start
with a code from {A, C, D, M, R} followed by two spaces. -/
theorem stagedMatch_iff (s : String) :
    stagedMatch s = true ↔
      ∃ c ∈ (['A', 'C', 'D', 'M', 'R'] : List Char),
        ∃ t : List Char, s.data = c :: ' ' :: ' ' :: t := by
  rcases s with ⟨data⟩
  rcases data with _ | ⟨c, _ | ⟨d, _ | ⟨f, rest⟩⟩⟩
  · simp [stagedMatch]
  · simp [stagedMatch]
  · simp [stagedMatch]
  · simp only [stagedMatch, Bool.and_eq_true, Bool.or_eq_true, beq_iff_eq]
    constructor
    · rintro ⟨⟨hc, hd⟩, hf⟩
      subst hd; subst hf
      refine ⟨c, ?_, rest, rfl⟩
      simp only [List.mem_cons, List.not_mem_nil, or_false]
      tauto
    · rintro ⟨c', hc', t, ht⟩
      injection ht with h1 ht; injection ht with h2 ht; injection ht with h3 _
      subst h1; subst h2; subst h3
      refine ⟨⟨?_, rfl⟩, rfl⟩
      simp only [List.mem_cons, List.not_mem_nil, or_false] at hc'
      tauto

theorem stagedLoop_iff (l : List String) :
    stagedLoop l = true ↔ ∃ s ∈ l, stagedMatch s = true := by
  induction l with
  | nil => simp [stagedLoop]
  | cons s rest ih =>
      by_cases h : stagedMatch s = true
      · simp [stagedLoop, h]
      · simp only [Bool.not_eq_true] at h
        simp [stagedLoop, h, ih]

/-- C4: for every short-status output, `hasStagedChanges` returns true
iff some line of the output starts with a single character from
{A, C, D, M, R} followed by two spaces; a line with any other leading
spacing or leading characters does not count as a staged change. -/
theorem hasStagedChanges_iff_staged_line (out : String) :
    hasStagedChangesOut out = true ↔
      ∃ s ∈ splitNl out, ∃ c ∈ (['A', 'C', 'D', 'M', 'R'] : List Char),
        ∃ t : List Char, s.data = c :: ' ' :: ' ' :: t := by
  unfold hasStagedChangesOut
  rw [stagedLoop_iff]
  exact exists_congr fun s => and_congr_right fun _ => stagedMatch_iff s

/-- The claim-side current-branch marker: the line starts with the two
characters `"* "`. -/
def currentBranchMarked (s : String) : Bool :=
  match s.data with
  | c :: d :: _ => c == '*' && d == ' '
  | _ => false

theorem charBeq_comm (a b : Char) : (a == b) = (b == a) := by
  by_cases h : a = b
  · subst h; rfl
  · have h2 : ¬b = a := fun hh => h hh.symm
    rw [beq_eq_false_iff_ne.mpr h, beq_eq_false_iff_ne.mpr h2]

theorem hasPrefixCh_star_eq (s : String) :
    hasPrefixCh ("* ").data s.data = currentBranchMarked s := by
  rcases s with ⟨data⟩
  rcases data with _ | ⟨c, _ | ⟨d, rest⟩⟩
  · rfl
  · show hasPrefixCh ['*', ' '] [c] = currentBranchMarked ⟨[c]⟩
    simp [hasPrefixCh, currentBranchMarked]
  · show hasPrefixCh ['*', ' '] (c :: d :: rest)
        = currentBranchMarked ⟨c :: d :: rest⟩
    simp only [hasPrefixCh, currentBranchMarked, Bool.and_true]
    rw [charBeq_comm '*' c, charBeq_comm ' ' d]

theorem branchLoop_eq_find (l : List String) :
    branchLoop l = (match l.find? currentBranchMarked with
      | some s => strEq s "* master"
      | none => false) := by
  induction l with
  | nil => rfl
  | cons s rest ih =>
      by_cases h : currentBranchMarked s = true
      · rw [branchLoop, hasPrefixCh_star_eq, h, List.find?_cons_of_pos _ h]
        simp
      · simp only [Bool.not_eq_true] at h
        rw [branchLoop, hasPrefixCh_star_eq, h,
          List.find?_cons_of_neg _ (by simp [h]), ih]
        simp

/-- C5: for every branch-listing output, `isOnMaster` returns true iff
the (first) line prefixed by `"* "` is exactly `"* master"`, and
returns false (rather than failing) when no line carries the
current-branch marker. -/
theorem isOnMaster_current_line (out : String) :
    (isOnMasterOut out = true ↔
      (splitNl out).find? currentBranchMarked = some "* master")
    ∧ ((splitNl out).find? currentBranchMarked = none →
      isOnMasterOut out = false) := by
  unfold isOnMasterOut
  rw [branchLoop_eq_find]
  rcases h : (splitNl out).find? currentBranchMarked with _ | s
  · simp
  · simp only [Option.some.injEq]
    constructor
    · exact strEq_iff s "* master"
    · intro hnone; cases hnone

/-- Witness for C5 at concrete outputs: a detached-HEAD style listing
with no `"* "` line yields false. -/
theorem isOnMaster_current_line_witness :
    isOnMasterOut "  dev\n  master\n" = false :=
  (isOnMaster_current_line "  dev\n  master\n").2 (by decide)

/-! ## Witness environments -/

/-- A benign environment: not verbose, root found, hook present, both
queries succeed with the given outputs, invocation outcomes given by
`runOk`. -/
def mkEnv (statusOut branchOut : String) (runOk : Argv → Bool) : Env :=
  ⟨false, true, "", StatRes.ok, true, "", "", true, statusOut, "", true,
    branchOut, "", runOk, fun _ => "boom"⟩

def envSyncMaster : Env := mkEnv "" "* master\n" (fun _ => true)

def envSyncFeature : Env := mkEnv "" "* dev\n" (fun _ => true)

def envHookErr : Env :=
  ⟨false, true, "", StatRes.otherErr, true, "denied", "", true, "", "",
    true, "", "", fun _ => true, fun _ => ""⟩

/-- C6: `sync` always runs fetch first; on mainline it then runs the
fast-forward-only pull and never a rebase; off mainline it runs the
rebase onto origin/master and never a pull. -/
theorem sync_fetch_then_pull_xor_rebase (e : Env) :
    (sync e).trace.head? = some fetchQ
    ∧ (pullFF ∈ (sync e).trace → isOnMasterOut e.branchOut = true)
    ∧ (rebaseMaster ∈ (sync e).trace → isOnMasterOut e.branchOut = false)
    ∧ (e.runOk fetchQ = true → e.branchOk = true →
        (isOnMasterOut e.branchOut = true →
          (sync e).trace = [fetchQ, branchQuery, pullFF]
          ∧ rebaseMaster ∉ (sync e).trace)
        ∧ (isOnMasterOut e.branchOut = false →
          (sync e).trace = [fetchQ, branchQuery, rebaseMaster]
          ∧ pullFF ∉ (sync e).trace)) := by
  unfold sync
  by_cases hf : e.runOk fetchQ <;> by_cases hb : e.branchOk <;>
    by_cases hm : isOnMasterOut e.branchOut = true <;>
    by_cases hp : e.runOk pullFF <;> by_cases hr : e.runOk rebaseMaster <;>
    simp_all [fetchQ, branchQuery, pullFF, rebaseMaster]

/-- Witness for C6: with every invocation succeeding, `sync` on master
is fetch + pull (no rebase) and `sync` on a feature branch is
fetch + rebase (no pull). -/
theorem sync_fetch_then_pull_xor_rebase_witness :
    ((sync envSyncMaster).trace = [fetchQ, branchQuery, pullFF]
      ∧ rebaseMaster ∉ (sync envSyncMaster).trace)
    ∧ ((sync envSyncFeature).trace = [fetchQ, branchQuery, rebaseMaster]
      ∧ pullFF ∉ (sync envSyncFeature).trace) :=
  ⟨((sync_fetch_then_pull_xor_rebase envSyncMaster).2.2.2 rfl rfl).1
      (by decide),
    ((sync_fetch_then_pull_xor_rebase envSyncFeature).2.2.2 rfl rfl).2
      (by decide)⟩

/-- C7: hook installation is idempotent: an existing hook file is never
overwritten (stat ok means no write); an absent file gets the fixed
template written with owner-executable permission `0700`; any other
stat failure is fatal (exit 1). -/
theorem installHook_idempotent :
    installHook StatRes.ok = HookAct.noop
    ∧ installHook StatRes.notExist = HookAct.wrote commitMsgHook 0o700
    ∧ installHook StatRes.otherErr = HookAct.fatal
    ∧ (∀ fs : HookFS, installHookFS (installHookFS fs) = installHookFS fs)
    ∧ (∀ c : String, installHookFS (some c) = some c)
    ∧ (∀ e : Env, e.hookStat = StatRes.otherErr →
        installHookRun e = ([Msg.err ("checking for hook file: "
          ++ e.hookStatErrText ++ "\n")], some 1)) := by
  refine ⟨rfl, rfl, rfl, fun fs => ?_, fun c => rfl, fun e he => ?_⟩
  · cases fs <;> rfl
  · simp [installHookRun, installHook, he]

/-- Witness for C7: a concrete environment whose hook-file stat fails
with a non-not-exist error dies with exit 1. -/
theorem installHook_idempotent_witness :
    installHookRun envHookErr
      = ([Msg.err ("checking for hook file: " ++ "denied" ++ "\n")],
        some 1) :=
  installHook_idempotent.2.2.2.2.2 envHookErr rfl

/-! ## C1 / C10: the create transaction and its rollback -/

theorem applyGit_statusQuery (st : GitState) :
    applyGit st statusQuery = st := rfl

theorem applyGit_branchQuery (st : GitState) :
    applyGit st branchQuery = st := rfl

theorem applyGit_checkoutNew (st : GitState) (n : String) :
    applyGit st (checkoutNew n) = ⟨n, st.branches ++ [n]⟩ := rfl

theorem applyGit_commitQ (st : GitState) :
    applyGit st commitQ = st := rfl

theorem applyGit_checkoutMaster (st : GitState) :
    applyGit st checkoutMaster = ⟨"master", st.branches⟩ := rfl

theorem applyGit_branchDelete (st : GitState) (n : String) :
    applyGit st (branchDelete n)
      = ⟨st.current, st.branches.filter (fun b => b != n)⟩ := rfl

theorem runTrace_cons (e : Env) (st : GitState) (a : Argv) (tr : List Argv) :
    runTrace e st (a :: tr)
      = runTrace e (if e.runOk a then applyGit st a else st) tr := rfl

theorem runTrace_nil (e : Env) (st : GitState) :
    runTrace e st [] = st := rfl

/-- C1: for `create`, when the preconditions hold (staged changes, on
master), the checkout succeeds and the commit step fails, the program
runs the compensating checkout of master and deletion of the new branch
(here: both compensations succeed, the spec's best-effort caveat), so
the final branch-level state has master as the current branch and the
newly created branch no longer exists. -/
theorem create_rollback_restores_master (e : Env) (name : String)
    (hs : e.statusOk = true)
    (hst : hasStagedChangesOut e.statusOut = true)
    (hb : e.branchOk = true)
    (hm : isOnMasterOut e.branchOut = true)
    (hco : e.runOk (checkoutNew name) = true)
    (hcm : e.runOk commitQ = false)
    (hr1 : e.runOk checkoutMaster = true)
    (hr2 : e.runOk (branchDelete name) = true) :
    (create e name).trace
      = [statusQuery, branchQuery, checkoutNew name, commitQ,
        checkoutMaster, branchDelete name]
    ∧ ∀ st : GitState,
        (runTrace e st (create e name).trace).current = "master"
        ∧ name ∉ (runTrace e st (create e name).trace).branches := by
  have htr : (create e name).trace
      = [statusQuery, branchQuery, checkoutNew name, commitQ,
        checkoutMaster, branchDelete name] := by
    simp [create, hs, hst, hb, hm, hco, hcm, hr1, hr2]
  refine ⟨htr, fun st => ?_⟩
  rw [htr]
  rw [runTrace_cons, runTrace_cons, runTrace_cons, runTrace_cons,
    runTrace_cons, runTrace_cons, runTrace_nil]
  rw [hco, hcm, hr1, hr2]
  simp only [applyGit_statusQuery, applyGit_branchQuery,
    applyGit_checkoutNew, applyGit_checkoutMaster, applyGit_branchDelete,
    if_true, if_false, ite_self]
  constructor
  · trivial
  · simp [List.mem_filter]

/-- Witness environment for the rollback claims: staged changes, on
master, and exactly the `git commit -q` step failing. -/
def envCommitFails : Env :=
  mkEnv "A  f.go\n" "* master\n" (fun a => !(a == commitQ))

/-- Witness for C1 at a concrete environment and branch name. -/
theorem create_rollback_restores_master_witness :
    (create envCommitFails "feat").trace
      = [statusQuery, branchQuery, checkoutNew "feat", commitQ,
        checkoutMaster, branchDelete "feat"]
    ∧ (runTrace envCommitFails ⟨"master", ["master"]⟩
        (create envCommitFails "feat").trace).current = "master"
    ∧ "feat" ∉ (runTrace envCommitFails ⟨"master", ["master"]⟩
        (create envCommitFails "feat").trace).branches := by
  have h := create_rollback_restores_master envCommitFails "feat"
    rfl (by decide) rfl (by decide) (by decide) (by decide) (by decide)
    (by decide)
  exact ⟨h.1, (h.2 ⟨"master", ["master"]⟩).1, (h.2 ⟨"master", ["master"]⟩).2⟩

/-- C10: the compensating rollback in `create` stops at the first
failing compensation step: when the rollback checkout of master fails,
the process exits with status 1 and the branch-delete step is never
invoked. -/
theorem create_rollback_stops_at_first_failure (e : Env) (name : String)
    (hs : e.statusOk = true)
    (hst : hasStagedChangesOut e.statusOut = true)
    (hb : e.branchOk = true)
    (hm : isOnMasterOut e.branchOut = true)
    (hco : e.runOk (checkoutNew name) = true)
    (hcm : e.runOk commitQ = false)
    (hr1 : e.runOk checkoutMaster = false) :
    (create e name).exit = some 1
    ∧ (create e name).trace
      = [statusQuery, branchQuery, checkoutNew name, commitQ,
        checkoutMaster]
    ∧ branchDelete name ∉ (create e name).trace := by
  have htr : create e name
      = ⟨[statusQuery, branchQuery, checkoutNew name, commitQ,
          checkoutMaster],
        verbosef e ("Creating and checking out branch " ++ quoteGo name
            ++ ".\n")
          ++ runEcho e (checkoutNew name)
          ++ verbosef e "Committing staged changes to branch.\n"
          ++ runEcho e commitQ
          ++ verbosef e ("Commit failed: " ++ e.runErrText commitQ ++ "\n")
          ++ verbosef e "Switching back to master.\n"
          ++ runFailMsgs e checkoutMaster,
        some 1⟩ := by
    simp [create, hs, hst, hb, hm, hco, hcm, hr1]
  rw [htr]
  refine ⟨rfl, rfl, ?_⟩
  simp [statusQuery, branchQuery, checkoutNew, commitQ, checkoutMaster,
    branchDelete]

/-- Witness environment for C10: staged changes, on master, the commit
step and the rollback checkout both failing. -/
def envRollbackFails : Env :=
  mkEnv "A  f.go\n" "* master\n"
    (fun a => !(a == commitQ || a == checkoutMaster))

/-- Witness for C10 at a concrete environment and branch name. -/
theorem create_rollback_stops_at_first_failure_witness :
    (create envRollbackFails "feat").exit = some 1
    ∧ (create envRollbackFails "feat").trace
      = [statusQuery, branchQuery, checkoutNew "feat", commitQ,
        checkoutMaster]
    ∧ branchDelete "feat" ∉ (create envRollbackFails "feat").trace :=
  create_rollback_stops_at_first_failure envRollbackFails "feat"
    rfl (by decide) rfl (by decide) (by decide) (by decide) (by decide)

/-! ## C2: precondition violations are fatal and side-effect free -/

/-- C2: invoking `create` or `commit` without staged changes, `create`
off the master branch, or `commit`/`upload` on the master branch,
terminates with the descriptive message and exit status 1, and the
trace holds only the read-only status/branch queries — no checkout,
commit or push is issued. -/
theorem precondition_violation_fatal (e : Env) (name : String) :
    (e.statusOk = true → hasStagedChangesOut e.statusOut = false →
      (create e name = ⟨[statusQuery], [Msg.err noStagedMsg], some 1⟩
        ∧ ∀ a ∈ (create e name).trace,
            a = statusQuery ∨ a = branchQuery)
      ∧ (commit e = ⟨[statusQuery], [Msg.err noStagedMsg], some 1⟩
        ∧ ∀ a ∈ (commit e).trace, a = statusQuery ∨ a = branchQuery))
    ∧ (e.statusOk = true → hasStagedChangesOut e.statusOut = true →
       e.branchOk = true → isOnMasterOut e.branchOut = false →
      create e name
          = ⟨[statusQuery, branchQuery], [Msg.err notOnMasterMsg], some 1⟩
        ∧ ∀ a ∈ (create e name).trace, a = statusQuery ∨ a = branchQuery)
    ∧ (e.statusOk = true → hasStagedChangesOut e.statusOut = true →
       e.branchOk = true → isOnMasterOut e.branchOut = true →
      commit e
          = ⟨[statusQuery, branchQuery], [Msg.err commitOnMasterMsg],
            some 1⟩
        ∧ ∀ a ∈ (commit e).trace, a = statusQuery ∨ a = branchQuery)
    ∧ (e.branchOk = true → isOnMasterOut e.branchOut = true →
      upload e = ⟨[branchQuery], [Msg.err uploadOnMasterMsg], some 1⟩
        ∧ ∀ a ∈ (upload e).trace, a = statusQuery ∨ a = branchQuery) := by
  refine ⟨fun h1 h2 => ⟨⟨?_, ?_⟩, ?_, ?_⟩, fun h1 h2 h3 h4 => ⟨?_, ?_⟩,
    fun h1 h2 h3 h4 => ⟨?_, ?_⟩, fun h1 h2 => ⟨?_, ?_⟩⟩ <;>
    simp [create, commit, upload, h1, h2, *]

def envNoStaged : Env := mkEnv "?? x.go\n" "* master\n" (fun _ => true)

def envNotMaster : Env := mkEnv "A  f.go\n" "* dev\n" (fun _ => true)

def envOnMaster : Env := mkEnv "A  f.go\n" "* master\n" (fun _ => true)

/-- Witness for C2: the five violation scenarios at concrete
environments. -/
theorem precondition_violation_fatal_witness :
    create envNoStaged "b" = ⟨[statusQuery], [Msg.err noStagedMsg], some 1⟩
    ∧ commit envNoStaged = ⟨[statusQuery], [Msg.err noStagedMsg], some 1⟩
    ∧ create envNotMaster "b"
      = ⟨[statusQuery, branchQuery], [Msg.err notOnMasterMsg], some 1⟩
    ∧ commit envOnMaster
      = ⟨[statusQuery, branchQuery], [Msg.err commitOnMasterMsg], some 1⟩
    ∧ upload envOnMaster
      = ⟨[branchQuery], [Msg.err uploadOnMasterMsg], some 1⟩ :=
  ⟨((precondition_violation_fatal envNoStaged "b").1 rfl (by decide)).1.1,
    ((precondition_violation_fatal envNoStaged "b").1 rfl (by decide)).2.1,
    ((precondition_violation_fatal envNotMaster "b").2.1 rfl (by decide)
      rfl (by decide)).1,
    ((precondition_violation_fatal envOnMaster "b").2.2.1 rfl (by decide)
      rfl (by decide)).1,
    ((precondition_violation_fatal envOnMaster "b").2.2.2 rfl
      (by decide)).1⟩

/-! ## C8 / C9: dispatcher usage and help paths -/

/-- C8: with startup succeeding, an unrecognized or missing command
prints usage and exits with status 2, while `help` prints the extended
usage block and exits 0. -/
theorem main_usage_and_help (e : Env) (args : List String)
    (hroot : e.rootOk = true)
    (hhook : (installHookRun e).2 = none) :
    ((args.head?.getD "") ∉ knownCommands →
      mainRun e args = ⟨[], (installHookRun e).1 ++ [Msg.usage], some 2⟩
      ∧ (mainRun e args).code = 2)
    ∧ (args.head?.getD "" = "help" →
      mainRun e args = ⟨[], (installHookRun e).1 ++ [Msg.help], none⟩
      ∧ (mainRun e args).code = 0) := by
  rcases hins : installHookRun e with ⟨hms, ho⟩
  rw [hins] at hhook
  simp only at hhook
  subst hhook
  constructor
  · intro hnot
    have hF : ∀ t ∈ knownCommands, strEq (args.head?.getD "") t = false :=
      fun t ht => strEq_false_of_ne (fun h => hnot (h ▸ ht))
    have heq : mainRun e args = ⟨[], hms ++ [Msg.usage], some 2⟩ := by
      simp [mainRun, hroot, hins,
        hF "help" (by decide), hF "create" (by decide),
        hF "cr" (by decide), hF "commit" (by decide),
        hF "co" (by decide), hF "diff" (by decide), hF "d" (by decide),
        hF "upload" (by decide), hF "u" (by decide),
        hF "sync" (by decide), hF "s" (by decide),
        hF "pending" (by decide), hF "p" (by decide)]
    exact ⟨heq, by rw [heq]; rfl⟩
  · intro hcmd
    have heq : mainRun e args = ⟨[], hms ++ [Msg.help], none⟩ := by
      simp [mainRun, hroot, hins, hcmd, strEq_iff]
    exact ⟨heq, by rw [heq]; rfl⟩

def envPlain : Env := mkEnv "" "" (fun _ => true)

/-- Witness for C8: a bogus command and a missing command exit 2 with
usage; `help` exits 0 with the help block. -/
theorem main_usage_and_help_witness :
    mainRun envPlain ["bogus"] = ⟨[], [Msg.usage], some 2⟩
    ∧ (mainRun envPlain ["bogus"]).code = 2
    ∧ mainRun envPlain [] = ⟨[], [Msg.usage], some 2⟩
    ∧ mainRun envPlain ["help"] = ⟨[], [Msg.help], none⟩
    ∧ (mainRun envPlain ["help"]).code = 0 :=
  ⟨((main_usage_and_help envPlain ["bogus"] rfl rfl).1 (by decide)).1,
    ((main_usage_and_help envPlain ["bogus"] rfl rfl).1 (by decide)).2,
    ((main_usage_and_help envPlain [] rfl rfl).1 (by decide)).1,
    ((main_usage_and_help envPlain ["help"] rfl rfl).2 rfl).1,
    ((main_usage_and_help envPlain ["help"] rfl rfl).2 rfl).2⟩

/-- C9: invoking `create` (or its alias `cr`) with a missing or empty
branch-name argument prints usage and exits 2 before any staged-changes
check, branch check, or underlying-tool invocation: the trace is
empty. -/
theorem create_missing_name_usage (e : Env) (args : List String)
    (hroot : e.rootOk = true)
    (hhook : (installHookRun e).2 = none)
    (hcmd : args.head?.getD "" = "create" ∨ args.head?.getD "" = "cr")
    (hname : args[1]?.getD "" = "") :
    mainRun e args = ⟨[], (installHookRun e).1 ++ [Msg.usage], some 2⟩
    ∧ (mainRun e args).trace = [] := by
  rcases hins : installHookRun e with ⟨hms, ho⟩
  rw [hins] at hhook
  simp only at hhook
  subst hhook
  have heq : mainRun e args = ⟨[], hms ++ [Msg.usage], some 2⟩ := by
    rcases hcmd with h | h <;>
      simp [mainRun, hroot, hins, h, hname, strEq_iff]
  exact ⟨heq, by rw [heq]⟩

/-- Witness for C9: `create` with no name argument, and `cr` with an
empty name, both exit 2 with usage and an empty trace. -/
theorem create_missing_name_usage_witness :
    mainRun envPlain ["create"] = ⟨[], [Msg.usage], some 2⟩
    ∧ (mainRun envPlain ["cr", ""]).trace = [] :=
  ⟨(create_missing_name_usage envPlain ["create"] rfl rfl
      (Or.inl rfl) rfl).1,
    (create_missing_name_usage envPlain ["cr", ""] rfl rfl
      (Or.inr rfl) rfl).2⟩

/-! ## C3: error propagation -/

/-- Counterexample to C3 as stated: in the non-verbose environment
where exactly the `git commit -q` step of `create` returns non-zero,
an underlying-tool invocation fails, yet the process does not exit
with status 1 — the rollback runs and the process exits 0 — and
nothing at all is printed to standard error. -/
theorem error_not_always_terminal_cex :
    envCommitFails.runOk commitQ = false
    ∧ commitQ ∈ (create envCommitFails "feat").trace
    ∧ (create envCommitFails "feat").exit = none
    ∧ (create envCommitFails "feat").code = 0
    ∧ (create envCommitFails "feat").msgs = [] := by decide

/-- C3 amended: every underlying-tool invocation made through the
fatal wrapper `run` — and each captured query — is terminal on
failure: the program prints the failure and the invocation to standard
error and exits with status 1.  The single exception is the
`git commit -q` step of `create` (made through `runErr`): its failure
triggers the compensating rollback instead of exiting, and is reported
only in verbose mode; failures of the rollback steps are again
terminal. -/
theorem run_failures_terminal (e : Env) (name : String) :
    (∀ a : Argv,
      runFailMsgs e a = [Msg.echo a, Msg.err (e.runErrText a ++ "\n")])
    ∧ (e.runOk diffHead = false →
        diff e = ⟨[diffHead], runFailMsgs e diffHead, some 1⟩)
    ∧ (e.statusOk = true → hasStagedChangesOut e.statusOut = true →
       e.branchOk = true → isOnMasterOut e.branchOut = false →
       e.runOk commitAmend = false →
        commit e = ⟨[statusQuery, branchQuery, commitAmend],
          verbosef e "Amending head commit with staged changes.\n"
            ++ runFailMsgs e commitAmend, some 1⟩)
    ∧ (e.branchOk = true → isOnMasterOut e.branchOut = false →
       e.runOk pushUpload = false →
        upload e = ⟨[branchQuery, pushUpload],
          verbosef e "Pushing commit to Gerrit code review server.\n"
            ++ runFailMsgs e pushUpload, some 1⟩)
    ∧ (e.runOk fetchQ = false →
        sync e = ⟨[fetchQ],
          verbosef e "Fetching changes from remote repo.\n"
            ++ runFailMsgs e fetchQ, some 1⟩)
    ∧ (e.runOk fetchQ = true → e.branchOk = true →
       isOnMasterOut e.branchOut = true → e.runOk pullFF = false →
        (sync e).exit = some 1
        ∧ Msg.err (e.runErrText pullFF ++ "\n") ∈ (sync e).msgs
        ∧ Msg.echo pullFF ∈ (sync e).msgs)
    ∧ (e.runOk fetchQ = true → e.branchOk = true →
       isOnMasterOut e.branchOut = false → e.runOk rebaseMaster = false →
        (sync e).exit = some 1
        ∧ Msg.err (e.runErrText rebaseMaster ++ "\n") ∈ (sync e).msgs
        ∧ Msg.echo rebaseMaster ∈ (sync e).msgs)
    ∧ (e.statusOk = true → hasStagedChangesOut e.statusOut = true →
       e.branchOk = true → isOnMasterOut e.branchOut = true →
       e.runOk (checkoutNew name) = false →
        (create e name).exit = some 1
        ∧ Msg.err (e.runErrText (checkoutNew name) ++ "\n")
            ∈ (create e name).msgs
        ∧ Msg.echo (checkoutNew name) ∈ (create e name).msgs)
    ∧ (e.statusOk = true → hasStagedChangesOut e.statusOut = true →
       e.branchOk = true → isOnMasterOut e.branchOut = true →
       e.runOk (checkoutNew name) = true → e.runOk commitQ = false →
       e.runOk checkoutMaster = false →
        (create e name).exit = some 1
        ∧ Msg.err (e.runErrText checkoutMaster ++ "\n")
            ∈ (create e name).msgs
        ∧ Msg.echo checkoutMaster ∈ (create e name).msgs)
    ∧ (e.statusOk = true → hasStagedChangesOut e.statusOut = true →
       e.branchOk = true → isOnMasterOut e.branchOut = true →
       e.runOk (checkoutNew name) = true → e.runOk commitQ = false →
       e.runOk checkoutMaster = true →
       e.runOk (branchDelete name) = false →
        (create e name).exit = some 1
        ∧ Msg.err (e.runErrText (branchDelete name) ++ "\n")
            ∈ (create e name).msgs
        ∧ Msg.echo (branchDelete name) ∈ (create e name).msgs)
    ∧ (e.statusOk = true → hasStagedChangesOut e.statusOut = true →
       e.branchOk = true → isOnMasterOut e.branchOut = true →
       e.runOk (checkoutNew name) = true → e.runOk commitQ = false →
       e.runOk checkoutMaster = true →
       e.runOk (branchDelete name) = true →
        (create e name).exit = none
        ∧ (e.verbose = false →
            Msg.err (e.runErrText commitQ ++ "\n") ∉ (create e name).msgs))
    ∧ (e.statusOk = false →
        create e name = ⟨[statusQuery], [statusFailMsg e], some 1⟩
        ∧ commit e = ⟨[statusQuery], [statusFailMsg e], some 1⟩)
    ∧ (e.branchOk = false →
        upload e = ⟨[branchQuery], [branchFailMsg e], some 1⟩) := by
  refine ⟨fun a => ?_, fun h1 => ?_, fun h1 h2 h3 h4 h5 => ?_,
    fun h1 h2 h3 => ?_, fun h1 => ?_, fun h1 h2 h3 h4 => ?_,
    fun h1 h2 h3 h4 => ?_, fun h1 h2 h3 h4 h5 => ?_,
    fun h1 h2 h3 h4 h5 h6 h7 => ?_, fun h1 h2 h3 h4 h5 h6 h7 h8 => ?_,
    fun h1 h2 h3 h4 h5 h6 h7 h8 => ⟨?_, fun hv => ?_⟩,
    fun h1 => ⟨?_, ?_⟩, fun h1 => ?_⟩
  · rcases hv : e.verbose with _ | _ <;> simp [runFailMsgs, runEcho, hv]
  · simp [diff, h1]
  · simp [commit, h1, h2, h3, h4, h5]
  · simp [upload, h1, h2, h3]
  · simp [sync, h1]
  · simp [sync, runFailMsgs, runEcho, h1, h2, h3, h4]
  · simp [sync, runFailMsgs, runEcho, h1, h2, h3, h4]
  · simp [create, runFailMsgs, runEcho, h1, h2, h3, h4, h5]
  · simp [create, runFailMsgs, runEcho, h1, h2, h3, h4, h5, h6, h7]
  · simp [create, runFailMsgs, runEcho, h1, h2, h3, h4, h5, h6, h7, h8]
  · simp [create, h1, h2, h3, h4, h5, h6, h7, h8]
  · simp [create, verbosef, runEcho, h1, h2, h3, h4, h5, h6, h7, h8, hv]
  · simp [create, h1]
  · simp [commit, h1]
  · simp [upload, h1]

def envAllFail : Env := mkEnv "A  f.go\n" "* master\n" (fun _ => false)

def envFeatureFail : Env := mkEnv "A  f.go\n" "* dev\n" (fun _ => false)

def envPullFail : Env := mkEnv "" "* master\n" (fun a => a == fetchQ)

def envRebaseFail : Env := mkEnv "" "* dev\n" (fun a => a == fetchQ)

def envDeleteFails : Env :=
  mkEnv "A  f.go\n" "* master\n"
    (fun a => !(a == commitQ || a == branchDelete "feat"))

def envStatusFail : Env :=
  ⟨false, true, "", StatRes.ok, true, "", "", false, "", "boom", true,
    "", "", fun _ => true, fun _ => "boom"⟩

/-- Witness for the amended C3 across its scenarios, at concrete
environments. -/
theorem run_failures_terminal_witness :
    diff envAllFail
      = ⟨[diffHead], runFailMsgs envAllFail diffHead, some 1⟩
    ∧ (commit envFeatureFail).exit = some 1
    ∧ (upload envFeatureFail).exit = some 1
    ∧ (sync envAllFail).exit = some 1
    ∧ (sync envPullFail).exit = some 1
    ∧ (sync envRebaseFail).exit = some 1
    ∧ (create envAllFail "feat").exit = some 1
    ∧ (create envRollbackFails "feat").exit = some 1
    ∧ (create envDeleteFails "feat").exit = some 1
    ∧ (create envCommitFails "feat").exit = none
    ∧ (create envStatusFail "feat").exit = some 1 := by
  refine ⟨(run_failures_terminal envAllFail "feat").2.1 rfl, ?_, ?_, ?_,
    ?_, ?_, ?_, ?_, ?_, ?_, ?_⟩
  · rw [(run_failures_terminal envFeatureFail "feat").2.2.1 rfl
      (by decide) rfl (by decide) rfl]
  · rw [(run_failures_terminal envFeatureFail "feat").2.2.2.1 rfl
      (by decide) rfl]
  · rw [(run_failures_terminal envAllFail "feat").2.2.2.2.1 rfl]
  · exact ((run_failures_terminal envPullFail "feat").2.2.2.2.2.1
      (by decide) rfl (by decide) (by decide)).1
  · exact ((run_failures_terminal envRebaseFail "feat").2.2.2.2.2.2.1
      (by decide) rfl (by decide) (by decide)).1
  · exact ((run_failures_terminal envAllFail "feat").2.2.2.2.2.2.2.1 rfl
      (by decide) rfl (by decide) rfl).1
  · exact ((run_failures_terminal envRollbackFails
      "feat").2.2.2.2.2.2.2.2.1 rfl (by decide) rfl (by decide)
      (by decide) (by decide) (by decide)).1
  · exact ((run_failures_terminal envDeleteFails
      "feat").2.2.2.2.2.2.2.2.2.1 rfl (by decide) rfl (by decide)
      (by decide) (by decide) (by decide) (by decide)).1
  · exact ((run_failures_terminal envCommitFails
      "feat").2.2.2.2.2.2.2.2.2.2.1 rfl (by decide) rfl (by decide)
      (by decide) (by decide) (by decide) (by decide)).1
  · exact congrArg Res.exit
      ((run_failures_terminal envStatusFail
        "feat").2.2.2.2.2.2.2.2.2.2.2.1 rfl).1
